import Mathlib

/-!
Shallow embedding of the cordial chat-turn pipeline.

Source files embedded here:
* `frontend/app/api/chat/route.ts` (the `POST` chat turn handler),
* `frontend/lib/ai/gemini.ts` (`streamGeminiText`, `generateChatTitle`),
* `frontend/lib/data/conversations.ts` (`getConversationIfOwner`,
  `saveMessagesToConversation`, `updateConversationTitle`),
* `frontend/lib/data/memberships.ts` / `tasks.ts` / `files.ts` (modelled as
  collaborator results supplied by an environment record).

External collaborators (MongoDB, the session provider, the Gemini API and the
retrieval FastAPI service) are modelled by explicit inputs: the database is a
list of documents, the session is an optional user id, and each remote call's
outcome is a field of an environment record.  Effects are made observable
through a trace record counting collaborator invocations.
-/

namespace Cordial

/-! ### JavaScript string primitives used by the source -/

/-- Whitespace characters recognised by the JavaScript `String.prototype.trim`
calls in the source (ASCII fragment; the source only ever trims model output
and user chat text). -/
def isJsWs (c : Char) : Bool :=
  c = ' ' || c = '\t' || c = '\n' || c = '\r'

/-- Embedding of `s.trim()`: strip leading and trailing whitespace. -/
def jsTrim (s : String) : String :=
  ⟨((s.data.dropWhile isJsWs).reverse.dropWhile isJsWs).reverse⟩

/-- Embedding of `s.toLowerCase()` (character-wise lowering). -/
def jsToLower (s : String) : String :=
  ⟨s.data.map Char.toLower⟩

/-- The double-quote character, written by code point to keep literals plain. -/
def dquoteChar : Char := Char.ofNat 34

/-- The single-quote character, written by code point to keep literals plain. -/
def squoteChar : Char := Char.ofNat 39

/-- A one-character string holding a single quote (used by the file-name list
formatting in the route handler). -/
def squoteStr : String := ⟨[squoteChar]⟩

/-- Embedding of `title.replace(/["']/g, "")`: delete every double or single
quote character. -/
def removeQuotes (s : String) : String :=
  ⟨s.data.filter (fun c => !(c == dquoteChar) && !(c == squoteChar))⟩

/-- Embedding of `s.substring(0, n)` (ASCII reading: code units = characters). -/
def strTake (s : String) (n : Nat) : String :=
  ⟨s.data.take n⟩

/-- Embedding of JavaScript `Array.prototype.join(sep)` on character lists. -/
def joinSep (sep : List Char) : List (List Char) → List Char
  | [] => []
  | [x] => x
  | x :: y :: rest => x ++ sep ++ joinSep sep (y :: rest)

/-- `String`-level wrapper of `joinSep`, mirroring the `Array.join` /
`String.intercalate` uses in the source. -/
def strJoin (sep : String) (parts : List String) : String :=
  ⟨joinSep sep.data (parts.map String.data)⟩

/-- Bool test: `sub` occurs as a contiguous run at the head of `l`. -/
def isSubAt : List Char → List Char → Bool
  | [], _ => true
  | _ :: _, [] => false
  | a :: as, b :: bs => a == b && isSubAt as bs

/-- Bool test: `sub` occurs as a contiguous run somewhere inside `l`. -/
def hasSub (sub : List Char) : List Char → Bool
  | [] => sub.isEmpty
  | b :: t => isSubAt sub (b :: t) || hasSub sub t

/-- `containsStr s sub` holds when `sub` occurs contiguously inside `s`. -/
def containsStr (s sub : String) : Bool :=
  hasSub sub.data s.data

/-! ### MongoDB ObjectId

The driver's `new ObjectId(hex)` accepts a 24 character hex string and throws
otherwise; the data-layer functions construct ids inside `try` blocks and map
the throw to an error return.  We model ids as strings and the constructor as
a partial parse. -/

/-- Object ids are modelled as their canonical 24-hex-digit string form. -/
abbrev OId := String

/-- Hex digit test for `ObjectId` validation. -/
def isHexDigit (c : Char) : Bool :=
  c.isDigit || ('a' ≤ c && c ≤ 'f') || ('A' ≤ c && c ≤ 'F')

/-- Embedding of `new ObjectId(s)`: succeeds exactly on 24-hex-digit strings. -/
def parseObjectId (s : String) : Option OId :=
  if s.length = 24 ∧ s.data.all isHexDigit = true then some s else none

/-! ### `generateChatTitle` (lib/ai/gemini.ts, lines 124-179)

The Gemini `generateText` call is an external collaborator; its outcome is the
`modelText` argument (`none` models a thrown/failed call, `some raw` models a
successful call whose `result.text` is `raw`). -/

/-- The trivial-first-message test of `generateChatTitle` (lines 128-133):
falsy content, trimmed length under 5, or a bare greeting. -/
def skipTitleGeneration (firstUserMessageContent : String) : Bool :=
  firstUserMessageContent == "" ||
  decide ((jsTrim firstUserMessageContent).length < 5) ||
  jsToLower firstUserMessageContent == "hi" ||
  jsToLower firstUserMessageContent == "hello"

/-- The cleanup applied to a successful model response (lines 159-166):
trim, delete quote characters, cap at 50 characters (47 + three dots). -/
def cleanTitle (raw : String) : String :=
  let t0 := jsTrim raw
  let t1 := removeQuotes t0
  if 50 < t1.length then strTake t1 47 ++ "..." else t1

/-- Result of `generateChatTitle`: the returned title (`none` for the skip,
empty-cleanup and error paths) plus whether the model was actually called. -/
structure TitleGen where
  title : Option String
  modelCalled : Bool
  deriving DecidableEq, Repr

/-- Embedding of `generateChatTitle` (lib/ai/gemini.ts lines 124-179). -/
def generateChatTitle (firstUserMessageContent : String)
    (modelText : Option String) : TitleGen :=
  if skipTitleGeneration firstUserMessageContent then
    { title := none, modelCalled := false }
  else
    match modelText with
    | none => { title := none, modelCalled := true }
    | some raw =>
      let t := cleanTitle raw
      { title := if t = "" then none else some t, modelCalled := true }

/-! ### Conversation store (lib/data/conversations.ts)

The MongoDB `conversations` collection is modelled as a list of documents;
`findOne` is `List.find?` and `updateOne` updates the first matching
document.  The ambient session (`await auth()`) is an explicit `Option OId`
argument, and `Date.now` / fresh `ObjectId` generation are explicit
arguments. -/

/-- Embedded Vercel-AI-SDK `Message` (id, role, content). -/
structure Message where
  id : String
  role : String
  content : String
  deriving DecidableEq, Repr

/-- Embedded `ChatMessage` (types.ts): a `Message` plus the optional Mongo
fields `_id` and `createdAt` assigned on save. -/
structure ChatMsg where
  id : String
  role : String
  content : String
  mongoId : Option OId := none
  createdAt : Option Nat := none
  deriving DecidableEq, Repr

/-- Embedded `Conversation` document (types.ts). -/
structure Conversation where
  mongoId : OId
  projectId : OId
  userId : OId
  title : Option String := none
  messages : List ChatMsg := []
  createdAt : Nat := 0
  updatedAt : Nat := 0
  deriving DecidableEq, Repr

/-- `updateOne`-style update of the first document matching `p`; returns
whether a document matched together with the updated collection. -/
def updateFirst (p : α → Bool) (f : α → α) : List α → Bool × List α
  | [] => (false, [])
  | x :: xs =>
    if p x then (true, f x :: xs)
    else
      let r := updateFirst p f xs
      (r.1, x :: r.2)

/-- Embedding of `getConversationIfOwner` (conversations.ts lines 70-123):
`findOne({_id, userId})` scoped to the session user. -/
def getConversationIfOwner (session : Option OId) (db : List Conversation)
    (conversationId : String) : Option Conversation :=
  match session with
  | none => none
  | some uid =>
    match parseObjectId conversationId with
    | none => none
    | some cid => db.find? (fun c => c.mongoId == cid && c.userId == uid)

/-- Embedding of `saveMessagesToConversation` (conversations.ts lines
133-214).  `now` is the wall clock and `freshId i` the `new ObjectId()`
generated for the `i`-th message lacking one.  Returns the reported success
flag and the resulting collection. -/
def saveMessagesToConversation (session : Option OId) (now : Nat)
    (freshId : Nat → OId) (db : List Conversation) (conversationId : String)
    (messages : List ChatMsg) : Bool × List Conversation :=
  match session with
  | none => (false, db)
  | some uid =>
    match parseObjectId conversationId with
    | none => (false, db)
    | some cid =>
      if messages.isEmpty then (true, db)
      else
        let messagesToSave := messages.mapIdx (fun i m =>
          { m with
            mongoId := some (m.mongoId.getD (freshId i)),
            createdAt := some (m.createdAt.getD now) })
        updateFirst (fun c => c.mongoId == cid && c.userId == uid)
          (fun c =>
            { c with messages := c.messages ++ messagesToSave, updatedAt := now })
          db

/-- Embedding of `updateConversationTitle` (conversations.ts lines 226-280):
refuse blank titles, then `updateOne({_id}, {$set: {title: trimmed}})` with
no ownership filter. -/
def updateConversationTitle (now : Nat) (db : List Conversation)
    (conversationId : String) (newTitle : String) : Bool × List Conversation :=
  if newTitle = "" ∨ (jsTrim newTitle).length = 0 then (false, db)
  else
    match parseObjectId conversationId with
    | none => (false, db)
    | some cid =>
      updateFirst (fun c => c.mongoId == cid)
        (fun c => { c with title := some (jsTrim newTitle), updatedAt := now })
        db

/-! ### The chat turn handler `POST` (app/api/chat/route.ts)

Collaborator outcomes are supplied through an `Env` record:
`roleResult` is what `getUserRoleInProject` resolves to, `tasksResult` what
`getActiveAssignedTasksForUser` resolves to, `persistResult i` what
`createProjectFileRecord` returns for the `i`-th staged file (`none` models
the logged-and-swallowed insertion failure of files.ts), and `rag` the
outcome of the `fetch` to the retrieval FastAPI service.  A `Trace` records
which collaborators the handler actually invoked.  The `Promise.all` of the
role and task lookups is modelled by both calls being recorded before either
result is inspected; the per-file `Promise.all` is modelled in list order
(the loop body only writes independent records, plus the shared `publicUrl`,
whose final value comes from the last file in completion order — list order
here). -/

/-- Staged file descriptor sent by the client (route.ts lines 192-198). -/
structure StagedFileData where
  name : String
  path : String
  url : Option String := none
  contentType : String := ""
  size : Nat := 0
  deriving DecidableEq, Repr

/-- The `data` object of the request body (route.ts lines 220-224). -/
structure RequestData where
  conversationId : Option String := none
  projectId : Option String := none
  stagedFilesData : Option (List StagedFileData) := none
  deriving DecidableEq, Repr

/-- Parsed request body: the message history plus the optional `data`. -/
structure ChatRequest where
  messages : List Message
  data : Option RequestData := none
  deriving DecidableEq, Repr

/-- The slice of a persisted `ProjectFile` record the handler reads back. -/
structure ProjectFileRec where
  mongoId : OId
  publicUrl : String
  deriving DecidableEq, Repr

/-- Outcome of the retrieval-service `fetch` (route.ts lines 359-401):
a thrown transport error, a non-ok HTTP response, or an ok response whose
JSON carries `results` (their `content` strings). -/
inductive RagOutcome where
  | transportError
  | httpStatusError (body : String)
  | ok (results : List String)
  deriving DecidableEq, Repr

/-- Collaborator outcomes for one run of the handler. -/
structure Env where
  session : Option (OId × String)
  roleResult : Option String := none
  tasksResult : List (OId × String) := []
  persistResult : Nat → Option ProjectFileRec := fun _ => none
  rag : RagOutcome := .ok []
  now : Nat := 0

/-- Count of collaborator invocations (and the file payload the retrieval
call was issued with, when it was issued). -/
structure Trace where
  roleLookupCalls : Nat := 0
  taskFetchCalls : Nat := 0
  fileRecordCalls : Nat := 0
  fileErrorLogs : Nat := 0
  ragCalls : Nat := 0
  ragFilePayload : Option (Option String) := none
  userSaveCalls : Nat := 0
  modelStreamCalls : Nat := 0
  deriving DecidableEq, Repr

/-- The argument record `streamGeminiText` hands to the SDK `streamText`
call (gemini.ts lines 78-100): the message list is forwarded unmodified. -/
structure ModelCall where
  messages : List Message
  systemPrompt : String
  deriving DecidableEq, Repr

/-- The fixed system instruction of the route handler (route.ts line 422). -/
def systemPromptText : String :=
  "Your name is Cordial... [Your full system prompt, including Markdown, role info etc.] ...be truthful to be debugged."

/-- Embedding of `streamGeminiText` (gemini.ts lines 78-100): package the
inputs for `streamText` without altering the message list. -/
def streamGeminiText (messages : List Message) (systemPrompt : String) :
    ModelCall :=
  { messages := messages, systemPrompt := systemPrompt }

/-- What the handler returns: an error JSON response or the started model
stream (identified by the `streamText` call it wraps). -/
inductive PostResult where
  | response (status : Nat) (error : String)
  | stream (call : ModelCall)
  deriving DecidableEq, Repr

/-- One line of the active-task summary (route.ts line 330). -/
def taskLine (t : OId × String) : String :=
  "- " ++ t.2 ++ " (ID: " ++ t.1 ++ ")"

/-- The active-task summary (route.ts lines 327-332). -/
def activeTasksSummary (tasks : List (OId × String)) : String :=
  if 0 < tasks.length then strJoin "\n" (tasks.map taskLine)
  else "No active tasks currently assigned."

/-- A file name wrapped in single quotes (route.ts line 336). -/
def quotedName (name : String) : String :=
  squoteStr ++ name ++ squoteStr

/-- The quoted, comma-separated staged-file name list (route.ts line 336). -/
def fileNamesString (files : List StagedFileData) : String :=
  strJoin ", " (files.map (fun f => quotedName f.name))

/-- The synthetic context message body (route.ts lines 334-340).  Note the
file sentence is built from the staged files as sent by the client, not from
the successfully persisted records. -/
def contextMessageContent (userName userRole : String)
    (tasks : List (OId × String)) (files : List StagedFileData) : String :=
  let base := "CONTEXT: You are speaking with " ++ userName ++ " (Role: " ++
    userRole ++ "). Their currently active assigned tasks for this project are:\n" ++
    activeTasksSummary tasks
  let withFiles :=
    if 0 < files.length then
      base ++ "\n\nThe user has just attached the following file(s): " ++
        fileNamesString files ++
        ". Process the user's message considering these attachments."
    else base
  withFiles ++ "\n---"

/-- The synthetic role/task/file context message (route.ts lines 353-357). -/
def contextMessage (conversationId : String) (now : Nat) (content : String) :
    Message :=
  { role := "system", content := content,
    id := "context-" ++ conversationId ++ "-" ++ toString now }

/-- One ordinal-tagged retrieval snippet (route.ts lines 386-390). -/
def ragSnippetLine (i : Nat) (content : String) : String :=
  "(" ++ toString (i + 1) ++ ") " ++ content

/-- The retrieval-context message (route.ts lines 385-397). -/
def ragMessage (conversationId : String) (now : Nat)
    (results : List String) : Message :=
  { role := "system",
    content := "ADDITIONAL CONTEXT FROM RAG SERVER:\n" ++
      strJoin "\n\n" (results.mapIdx ragSnippetLine) ++ "\n---",
    id := "rag-fastapi-" ++ conversationId ++ "-" ++ toString now }

/-- Staged-file persistence loop (route.ts lines 272-323): every staged file
gets a `createProjectFileRecord` call; failures are logged and swallowed.
Returns the final shared `publicUrl`, the collected records and the number of
logged failures. -/
def processFiles (persist : Nat → Option ProjectFileRec)
    (files : List StagedFileData) :
    Option String × List ProjectFileRec × Nat :=
  let results := (List.range files.length).map persist
  let processed := results.filterMap id
  let failures := (results.filter Option.isNone).length
  let publicUrl :=
    match results.getLast? with
    | some (some savedRecord) => some savedRecord.publicUrl
    | some none => none
    | none => none
  (publicUrl, processed, failures)

/-- JavaScript falsiness of the optional id strings (`!conversationId`):
absent or empty. -/
def jsFalsy : Option String → Bool
  | none => true
  | some s => s == ""

/-- Request validation (route.ts lines 229-249): reject missing ids, an
empty message list, and a last message not sent by the user; otherwise
return the ids, the staged files and the last (user) message. -/
def validateRequest (req : ChatRequest) :
    Except (Nat × String) (String × String × List StagedFileData × Message) :=
  let conversationIdOpt := req.data.bind RequestData.conversationId
  let projectIdOpt := req.data.bind RequestData.projectId
  let stagedFiles := (req.data.bind RequestData.stagedFilesData).getD []
  if jsFalsy conversationIdOpt || jsFalsy projectIdOpt then
    .error (400, "Missing conversationId or projectId")
  else
    match req.messages.getLast? with
    | none => .error (400, "Missing messages")
    | some lastUserMessage =>
      if lastUserMessage.role ≠ "user" then
        .error (400, "Last message must be from user")
      else
        .ok (conversationIdOpt.getD "", projectIdOpt.getD "", stagedFiles,
          lastUserMessage)

/-- The handler body after authentication and validation (route.ts lines
251-515).  The role and task lookups are issued together (`Promise.all`), so
both are traced before the role result is inspected.  When files are staged,
the loop's `new ObjectId(...)` constructors throw on malformed ids before any
record insertion, landing in the outer catch as a generic 500.  A retrieval
transport error likewise reaches the outer catch; a non-ok retrieval status
only skips the augmentation.  On the happy path the user-message save is
issued fire-and-forget and the model stream is started on the assembled
message list. -/
def afterValidation (env : Env) (userId userName conversationId projectId :
    String) (stagedFiles : List StagedFileData)
    (originalMessages : List Message) : PostResult × Trace :=
  let contextTrace : Trace := { roleLookupCalls := 1, taskFetchCalls := 1 }
  match env.roleResult with
  | none => (.response 500 "Failed to retrieve user context", contextTrace)
  | some userRole =>
    if 0 < stagedFiles.length ∧
        ((parseObjectId projectId).isNone ∨ (parseObjectId userId).isNone ∨
          (parseObjectId conversationId).isNone) then
      (.response 500 "Internal Server Error", contextTrace)
    else
      let fp := processFiles env.persistResult stagedFiles
      let fileTrace := { contextTrace with
        fileRecordCalls := stagedFiles.length, fileErrorLogs := fp.2.2 }
      let ctxMsg := contextMessage conversationId env.now
        (contextMessageContent userName userRole env.tasksResult stagedFiles)
      let baseMsgs := ctxMsg :: originalMessages
      let ragTrace := { fileTrace with
        ragCalls := 1, ragFilePayload := some fp.1 }
      match env.rag with
      | .transportError => (.response 500 "Internal Server Error", ragTrace)
      | .httpStatusError _ =>
        (.stream (streamGeminiText baseMsgs systemPromptText),
          { ragTrace with userSaveCalls := 1, modelStreamCalls := 1 })
      | .ok results =>
        let messagesForAI :=
          if 0 < results.length then
            ragMessage conversationId env.now results :: baseMsgs
          else baseMsgs
        (.stream (streamGeminiText messagesForAI systemPromptText),
          { ragTrace with userSaveCalls := 1, modelStreamCalls := 1 })

/-- Embedding of the `POST` chat handler (route.ts lines 200-546):
session check, request validation, then the turn body. -/
def POST (env : Env) (req : ChatRequest) : PostResult × Trace :=
  match env.session with
  | none => (.response 401 "Unauthorized or missing user data", {})
  | some (userId, userName) =>
    match validateRequest req with
    | .error e => (.response e.1 e.2, {})
    | .ok (conversationId, projectId, stagedFiles, _) =>
      afterValidation env userId userName conversationId projectId stagedFiles
        req.messages

/-! ### The `onFinish` completion callback (route.ts lines 425-504) -/

/-- Trace of the completion callback's collaborator calls. -/
structure CompletionTrace where
  assistantSaveCalls : Nat := 0
  convFetchCalls : Nat := 0
  titleModelCalls : Nat := 0
  titleSetCalls : Nat := 0
  deriving DecidableEq, Repr

/-- JavaScript falsiness of `currentConversation.title`: null, undefined or
the empty string. -/
def jsFalsyTitle : Option String → Bool
  | none => true
  | some t => t == ""

/-- Step 2 of `handleAiCompletion` (route.ts lines 459-503): when a first
user message exists, re-fetch the conversation and, while its title is still
falsy, generate a title and persist a produced one.  `db1` is the store
after the assistant-message save of step 1. -/
def titlePhase (session : Option OId) (now : Nat)
    (db1 : List Conversation) (conversationId : String)
    (originalMessages : List Message) (titleModelText : Option String) :
    CompletionTrace × List Conversation :=
  match originalMessages.find? (fun m => m.role == "user") with
  | none => ({ assistantSaveCalls := 1 }, db1)
  | some firstUserMessage =>
    match getConversationIfOwner session db1 conversationId with
    | none => ({ assistantSaveCalls := 1, convFetchCalls := 1 }, db1)
    | some currentConversation =>
      if jsFalsyTitle currentConversation.title then
        let gen := generateChatTitle firstUserMessage.content titleModelText
        match gen.title with
        | some generatedTitle =>
          ({ assistantSaveCalls := 1, convFetchCalls := 1,
             titleModelCalls := if gen.modelCalled then 1 else 0,
             titleSetCalls := 1 },
            (updateConversationTitle now db1 conversationId
              generatedTitle).2)
        | none =>
          ({ assistantSaveCalls := 1, convFetchCalls := 1,
             titleModelCalls := if gen.modelCalled then 1 else 0 }, db1)
      else
        ({ assistantSaveCalls := 1, convFetchCalls := 1 }, db1)

/-- The assistant `ChatMessage` built at route.ts lines 439-445, with its
two fresh object ids. -/
def assistantChatMsg (assistantDbId assistantStrId : OId) (content : String)
    (now : Nat) : ChatMsg :=
  { mongoId := some assistantDbId, id := "asst_" ++ assistantStrId,
    role := "assistant", content := content, createdAt := some now }

/-- Embedding of `handleAiCompletion` (route.ts lines 425-504): save the
assistant message, then run the title step on the saved store.
`assistantDbId`/`assistantStrId` are the two fresh object ids of lines
440-441 and `titleModelText` the outcome of the title model call. -/
def handleAiCompletion (session : Option OId) (now : Nat)
    (freshId : Nat → OId) (assistantDbId assistantStrId : OId)
    (db : List Conversation) (conversationId : String)
    (originalMessages : List Message) (assistantMessageContent : String)
    (titleModelText : Option String) : CompletionTrace × List Conversation :=
  titlePhase session now
    (saveMessagesToConversation session now freshId db conversationId
      [assistantChatMsg assistantDbId assistantStrId assistantMessageContent
        now]).2
    conversationId originalMessages titleModelText

/-- The HTTP status of an error result (`none` for a started stream). -/
def resultStatus : PostResult → Option Nat
  | .response s _ => some s
  | .stream _ => none

/-- Does a handler result stream a message list in which some message's
content contains `sub`? -/
def streamHasText (r : PostResult) (sub : String) : Bool :=
  match r with
  | .stream mc => mc.messages.any (fun m => containsStr m.content sub)
  | .response _ _ => false

/-! ### Concrete fixtures for witnesses and counterexamples -/

/-- A syntactically valid object id: 24 copies of one hex digit. -/
def hexId (c : Char) : OId := ⟨List.replicate 24 c⟩

/-- Fixture conversation id. -/
def cidA : OId := hexId 'a'

/-- Fixture project id. -/
def pidB : OId := hexId 'b'

/-- Fixture caller user id. -/
def uidC : OId := hexId 'c'

/-- Fixture task id. -/
def tidD : OId := hexId 'd'

/-- Fixture fresh object id (for generated message ids). -/
def fidE : OId := hexId 'e'

/-- Fixture assistant-message object id. -/
def aidF : OId := hexId 'f'

/-- Fixture id of a different user (not the conversation owner). -/
def uidO : OId := hexId '0'

/-- A one-character string holding a double quote. -/
def dquoteStr : String := ⟨[dquoteChar]⟩

/-- Fixture latest user message. -/
def userMsg1 : Message :=
  { id := "m1", role := "user", content := "Hello there, plan please" }

/-- Fixture non-trivial first user message (the spec's title example,
apostrophe written by code point). -/
def redesignMsg : Message :=
  { id := "m1", role := "user",
    content := "Let" ++ squoteStr ++ "s redesign the onboarding flow" }

/-- Fixture staged file. -/
def reportFile : StagedFileData :=
  { name := "report.pdf", path := "uploads/report.pdf" }

/-- Fixture valid request without staged files. -/
def validReq : ChatRequest :=
  { messages := [userMsg1],
    data := some { conversationId := some cidA, projectId := some pidB } }

/-- Fixture valid request with one staged file. -/
def fileReq : ChatRequest :=
  { messages := [userMsg1],
    data := some
      { conversationId := some cidA, projectId := some pidB,
        stagedFilesData := some [reportFile] } }

/-- Fixture request with the conversation id missing. -/
def missingIdReq : ChatRequest :=
  { messages := [userMsg1],
    data := some { projectId := some pidB } }

/-- Fixture environment: authenticated member with one active task, all
file persistences failing, retrieval returning no snippets. -/
def baseEnv : Env :=
  { session := some (uidC, "Ada"), roleResult := some "Member",
    tasksResult := [(tidD, "Fix bug")], persistResult := fun _ => none,
    rag := .ok [], now := 5 }

/-- Environment of a caller with no membership row (role lookup misses). -/
def noRoleEnv : Env := { baseEnv with roleResult := none }

/-- Environment whose retrieval call throws a transport error. -/
def ragDownEnv : Env := { baseEnv with rag := .transportError }

/-- Environment whose retrieval call returns a non-ok HTTP status. -/
def ragHttpErrEnv : Env := { baseEnv with rag := .httpStatusError "boom" }

/-- Environment whose retrieval call succeeds with two snippets. -/
def ragOkEnv : Env := { baseEnv with rag := .ok ["snippet one", "snippet two"] }

/-- Fixture conversation owned by `uidC` with no title yet. -/
def convNoTitle : Conversation :=
  { mongoId := cidA, projectId := pidB, userId := uidC, title := none }

/-- Fixture conversation owned by `uidC` whose title is the empty string:
a non-null title that the handler's falsy check treats as absent. -/
def convEmptyTitle : Conversation :=
  { mongoId := cidA, projectId := pidB, userId := uidC, title := some "" }

/-- Fixture conversation owned by `uidC` with a real (non-empty) title. -/
def convTitled : Conversation :=
  { mongoId := cidA, projectId := pidB, userId := uidC,
    title := some "Planning" }

/-- Fixture conversation with the same id but owned by a different user. -/
def convOtherOwner : Conversation :=
  { mongoId := cidA, projectId := pidB, userId := uidO, title := none }

/-- Fixture model response for title generation: a quoted title. -/
def rawTitle : String := dquoteStr ++ "Onboarding Flow Redesign" ++ dquoteStr

/-- Fixture chat message to append. -/
def chatMsg1 : ChatMsg := { id := "m1", role := "user", content := "Hello" }

/-- The message sequence required by the spec for one turn, written from the
spec's words (refinement target for the prompt-assembly claim): the optional
retrieval-context synthetic message, then the role/task/file synthetic
context message, then the original conversation history unmodified. -/
def specMessagesForAI (conversationId : String) (now : Nat)
    (rag : RagOutcome) (contextMsg : Message) (history : List Message) :
    List Message :=
  (match rag with
   | .ok results =>
     if 0 < results.length then [ragMessage conversationId now results]
     else []
   | _ => []) ++ [contextMsg] ++ history


/-! ### Helper lemmas -/

theorem strData_append (a b : String) : (a ++ b).data = a.data ++ b.data := rfl

theorem strLength_data (s : String) : s.length = s.data.length := rfl

theorem strData_eq_nil (s : String) : s.data = [] ↔ s = "" := by
  constructor
  · intro h
    cases s with
    | mk d => cases h; rfl
  · intro h
    subst h
    rfl

theorem jsTrim_length_le (s : String) : (jsTrim s).length ≤ s.length := by
  unfold jsTrim
  simp only [strLength_data, List.length_reverse]
  calc ((s.data.dropWhile isJsWs).reverse.dropWhile isJsWs).length
      ≤ (s.data.dropWhile isJsWs).reverse.length :=
        (List.dropWhile_sublist _).length_le
    _ = (s.data.dropWhile isJsWs).length := List.length_reverse _
    _ ≤ s.data.length := (List.dropWhile_sublist _).length_le

theorem jsTrim_mem (s : String) (c : Char) (h : c ∈ (jsTrim s).data) :
    c ∈ s.data := by
  unfold jsTrim at h
  simp only [List.mem_reverse] at h
  exact (List.dropWhile_sublist (l := s.data) (p := isJsWs)).mem
    (List.mem_reverse.mp ((List.dropWhile_sublist _).mem h))

theorem isSubAt_append (sub l r : List Char) (h : isSubAt sub l = true) :
    isSubAt sub (l ++ r) = true := by
  induction sub generalizing l with
  | nil => rfl
  | cons a as ih =>
    cases l with
    | nil => simp [isSubAt] at h
    | cons b bs =>
      simp only [isSubAt, Bool.and_eq_true] at h ⊢
      exact ⟨h.1, ih bs h.2⟩

theorem isSubAt_self_append (a r : List Char) :
    isSubAt a (a ++ r) = true := by
  induction a with
  | nil => rfl
  | cons x xs ih => simp [isSubAt, ih]

theorem hasSub_nil_left (l : List Char) : hasSub [] l = true := by
  cases l with
  | nil => rfl
  | cons b t => simp [hasSub, isSubAt]

theorem hasSub_of_isSubAt (sub l : List Char) (h : isSubAt sub l = true) :
    hasSub sub l = true := by
  cases l with
  | nil =>
    cases sub with
    | nil => rfl
    | cons a as => simp [isSubAt] at h
  | cons b t => simp [hasSub, h]

theorem hasSub_self_append (a r : List Char) : hasSub a (a ++ r) = true :=
  hasSub_of_isSubAt a (a ++ r) (isSubAt_self_append a r)

theorem hasSub_append_left (sub l r : List Char)
    (h : hasSub sub r = true) : hasSub sub (l ++ r) = true := by
  induction l with
  | nil => simpa using h
  | cons x xs ih => simp [hasSub, ih]

theorem hasSub_append_right (sub l r : List Char)
    (h : hasSub sub l = true) : hasSub sub (l ++ r) = true := by
  induction l with
  | nil =>
    simp only [hasSub, List.isEmpty_iff] at h
    subst h
    simpa using hasSub_nil_left r
  | cons b t ih =>
    simp only [hasSub, Bool.or_eq_true] at h ⊢
    rcases h with h | h
    · exact Or.inl (isSubAt_append _ _ _ h)
    · exact Or.inr (ih h)

theorem hasSub_joinSep (sep : List Char) (ls : List (List Char))
    (x : List Char) (hx : x ∈ ls) (sub : List Char)
    (h : hasSub sub x = true) : hasSub sub (joinSep sep ls) = true := by
  induction ls with
  | nil => cases hx
  | cons y rest ih =>
    cases rest with
    | nil =>
      rcases List.mem_singleton.mp hx with rfl
      simpa [joinSep] using h
    | cons z rest2 =>
      rcases List.mem_cons.mp hx with rfl | hx2
      · simpa [joinSep, List.append_assoc] using
          hasSub_append_right sub x (sep ++ joinSep sep (z :: rest2)) h
      · have := ih hx2
        simpa [joinSep, List.append_assoc] using
          hasSub_append_left sub (y ++ sep) (joinSep sep (z :: rest2)) this

/-- A staged file's name occurs inside the quoted, comma separated name list. -/
theorem hasSub_fileNames (files : List StagedFileData) (f : StagedFileData)
    (hf : f ∈ files) :
    hasSub f.name.data (fileNamesString files).data = true := by
  have hmem : (quotedName f.name).data ∈ (files.map
      (fun g => quotedName g.name)).map String.data :=
    List.mem_map_of_mem String.data (List.mem_map_of_mem _ hf)
  have hin : hasSub f.name.data (quotedName f.name).data = true := by
    show hasSub f.name.data ((squoteStr ++ f.name) ++ squoteStr).data = true
    rw [strData_append, strData_append]
    rw [List.append_assoc]
    exact hasSub_append_left _ _ _
      (hasSub_self_append f.name.data squoteStr.data)
  exact hasSub_joinSep _ _ _ hmem _ hin

/-- The context-message body contains every staged file's name. -/
theorem contextMessageContent_hasName (userName userRole : String)
    (tasks : List (OId × String)) (files : List StagedFileData)
    (f : StagedFileData) (hf : f ∈ files) :
    containsStr (contextMessageContent userName userRole tasks files)
      f.name = true := by
  have hlen : 0 < files.length := List.length_pos.mpr (List.ne_nil_of_mem hf)
  unfold containsStr contextMessageContent
  simp only [hlen, if_pos]
  rw [strData_append, strData_append, strData_append, strData_append]
  refine hasSub_append_right _ _ _ ?_
  refine hasSub_append_right _ _ _ ?_
  refine hasSub_append_left _ _ _ ?_
  exact hasSub_fileNames files f hf

/-! #### `updateFirst` lemmas -/

theorem updateFirst_not_found (p : α → Bool) (f : α → α) (l : List α)
    (h : ∀ x ∈ l, p x = false) : updateFirst p f l = (false, l) := by
  induction l with
  | nil => rfl
  | cons x xs ih =>
    have hx := h x (List.mem_cons_self x xs)
    simp only [updateFirst, hx, Bool.false_eq_true, if_false]
    rw [ih (fun y hy => h y (List.mem_cons_of_mem x hy))]

theorem updateFirst_mem (p : α → Bool) (f : α → α) (l : List α) :
    ∀ y ∈ (updateFirst p f l).2, y ∈ l ∨ ∃ x ∈ l, y = f x := by
  induction l with
  | nil => intro y hy; cases hy
  | cons x xs ih =>
    intro y hy
    by_cases hx : p x = true
    · simp only [updateFirst, hx, if_true] at hy
      rcases List.mem_cons.mp hy with rfl | hy2
      · exact Or.inr ⟨x, List.mem_cons_self x xs, rfl⟩
      · exact Or.inl (List.mem_cons_of_mem x hy2)
    · simp only [updateFirst, hx, if_false] at hy
      rcases List.mem_cons.mp hy with rfl | hy2
      · exact Or.inl (List.mem_cons_self y xs)
      · rcases ih y hy2 with h1 | ⟨z, hz, rfl⟩
        · exact Or.inl (List.mem_cons_of_mem x h1)
        · exact Or.inr ⟨z, List.mem_cons_of_mem x hz, rfl⟩

theorem updateFirst_found (p : α → Bool) (f : α → α) (l : List α)
    (x : α) (hx : x ∈ l) (hpx : p x = true) :
    (updateFirst p f l).1 = true ∧
      ∃ z ∈ l, p z = true ∧ f z ∈ (updateFirst p f l).2 := by
  induction l with
  | nil => cases hx
  | cons y ys ih =>
    by_cases hy : p y = true
    · refine ⟨by simp [updateFirst, hy], y, List.mem_cons_self y ys, hy, ?_⟩
      simp [updateFirst, hy]
    · have hxy : x ∈ ys := by
        rcases List.mem_cons.mp hx with rfl | h2
        · exact absurd hpx (by simp [hy])
        · exact h2
      obtain ⟨h1, z, hz, hpz, hfz⟩ := ih hxy
      refine ⟨by simp [updateFirst, hy, h1], z, List.mem_cons_of_mem y hz,
        hpz, ?_⟩
      simp only [updateFirst, hy, if_false]
      exact List.mem_cons_of_mem y hfz

theorem updateFirst_exists (p : α → Bool) (f : α → α) (q : α → Prop)
    (hf : ∀ x, q x → q (f x)) (l : List α) (h : ∃ x ∈ l, q x) :
    ∃ y ∈ (updateFirst p f l).2, q y := by
  induction l with
  | nil => simp at h
  | cons x xs ih =>
    obtain ⟨z, hz, hqz⟩ := h
    by_cases hx : p x = true
    · simp only [updateFirst, hx, if_true]
      rcases List.mem_cons.mp hz with rfl | h2
      · exact ⟨f z, List.mem_cons_self _ _, hf z hqz⟩
      · exact ⟨z, List.mem_cons_of_mem _ h2, hqz⟩
    · simp only [updateFirst, hx, if_false]
      rcases List.mem_cons.mp hz with rfl | h2
      · exact ⟨z, List.mem_cons_self _ _, hqz⟩
      · obtain ⟨y, hy, hqy⟩ := ih ⟨z, h2, hqz⟩
        exact ⟨y, List.mem_cons_of_mem _ hy, hqy⟩

/-- Every document in the store after a `saveMessagesToConversation` call has
a source document with the same id, owner and title: the save only appends
messages and bumps `updatedAt`. -/
theorem save_shape (session : Option OId) (now : Nat) (freshId : Nat → OId)
    (db : List Conversation) (conversationId : String)
    (messages : List ChatMsg) :
    ∀ c₁ ∈ (saveMessagesToConversation session now freshId db conversationId
        messages).2,
      ∃ c₀ ∈ db, c₁.mongoId = c₀.mongoId ∧ c₁.userId = c₀.userId ∧
        c₁.title = c₀.title := by
  intro c₁ h₁
  cases session with
  | none =>
    refine ⟨c₁, ?_, rfl, rfl, rfl⟩
    simpa [saveMessagesToConversation] using h₁
  | some uid =>
    cases hp : parseObjectId conversationId with
    | none =>
      refine ⟨c₁, ?_, rfl, rfl, rfl⟩
      simpa [saveMessagesToConversation, hp] using h₁
    | some cid =>
      cases he : messages.isEmpty with
      | true =>
        refine ⟨c₁, ?_, rfl, rfl, rfl⟩
        simpa [saveMessagesToConversation, hp, he] using h₁
      | false =>
        simp only [saveMessagesToConversation, hp, he, Bool.false_eq_true,
          if_false] at h₁
        rcases updateFirst_mem _ _ _ c₁ h₁ with h2 | ⟨x, hx, rfl⟩
        · exact ⟨c₁, h2, rfl, rfl, rfl⟩
        · exact ⟨x, hx, rfl, rfl, rfl⟩

/-- The save call preserves existence of a document with a given id and
owner. -/
theorem save_exists (session : Option OId) (now : Nat) (freshId : Nat → OId)
    (db : List Conversation) (conversationId : String)
    (messages : List ChatMsg) (cid uid : OId)
    (h : ∃ c ∈ db, c.mongoId = cid ∧ c.userId = uid) :
    ∃ c₁ ∈ (saveMessagesToConversation session now freshId db conversationId
        messages).2, c₁.mongoId = cid ∧ c₁.userId = uid := by
  cases session with
  | none => simpa [saveMessagesToConversation] using h
  | some u =>
    cases hp : parseObjectId conversationId with
    | none => simpa [saveMessagesToConversation, hp] using h
    | some c =>
      cases he : messages.isEmpty with
      | true => simpa [saveMessagesToConversation, hp, he] using h
      | false =>
        simp only [saveMessagesToConversation, hp, he, Bool.false_eq_true,
          if_false]
        refine updateFirst_exists _ _ _ ?_ db h
        intro x hx
        exact hx

/-! #### Title-cleanup lemmas -/

/-- The persisted titles never contain a quote character. -/
def quoteFree (s : String) : Prop :=
  ∀ c ∈ s.data, c ≠ dquoteChar ∧ c ≠ squoteChar

theorem removeQuotes_quoteFree (s : String) : quoteFree (removeQuotes s) := by
  intro c hc
  unfold removeQuotes at hc
  have := List.of_mem_filter hc
  simp only [Bool.and_eq_true, Bool.not_eq_true', beq_eq_false_iff_ne] at this
  exact this

theorem quoteFree_append (a b : String) (ha : quoteFree a)
    (hb : quoteFree b) : quoteFree (a ++ b) := by
  intro c hc
  rw [strData_append] at hc
  rcases List.mem_append.mp hc with h | h
  · exact ha c h
  · exact hb c h

theorem quoteFree_jsTrim (s : String) (h : quoteFree s) :
    quoteFree (jsTrim s) := fun c hc => h c (jsTrim_mem s c hc)

theorem cleanTitle_quoteFree (raw : String) : quoteFree (cleanTitle raw) := by
  show quoteFree (if 50 < (removeQuotes (jsTrim raw)).length then
    strTake (removeQuotes (jsTrim raw)) 47 ++ "..."
    else removeQuotes (jsTrim raw))
  by_cases h : 50 < (removeQuotes (jsTrim raw)).length
  · rw [if_pos h]
    refine quoteFree_append _ _ ?_ ?_
    · intro c hc
      exact removeQuotes_quoteFree (jsTrim raw) c
        (List.take_subset 47 _ hc)
    · intro c hc
      have hd : ("..." : String).data = ['.', '.', '.'] := rfl
      rw [hd] at hc
      simp only [List.mem_cons, List.not_mem_nil, or_false] at hc
      rcases hc with rfl | rfl | rfl <;> exact ⟨by decide, by decide⟩
  · rw [if_neg h]
    exact removeQuotes_quoteFree (jsTrim raw)

theorem cleanTitle_length_le (raw : String) : (cleanTitle raw).length ≤ 50 := by
  show (if 50 < (removeQuotes (jsTrim raw)).length then
    strTake (removeQuotes (jsTrim raw)) 47 ++ "..."
    else removeQuotes (jsTrim raw)).length ≤ 50
  by_cases h : 50 < (removeQuotes (jsTrim raw)).length
  · rw [if_pos h]
    rw [strLength_data] at h
    show (strTake (removeQuotes (jsTrim raw)) 47 ++ "...").data.length ≤ 50
    rw [strData_append, List.length_append]
    have h1 : (strTake (removeQuotes (jsTrim raw)) 47).data.length = 47 := by
      simp only [strTake, List.length_take]
      omega
    have h2 : ("..." : String).data.length = 3 := rfl
    omega
  · rw [if_neg h]
    omega

theorem strLength_eq_zero (s : String) : s.length = 0 ↔ s = "" := by
  rw [strLength_data, List.length_eq_zero, strData_eq_nil]

/-- What `updateConversationTitle` persists for a nonblank title: the first
document with the requested id gets `jsTrim newTitle` as its title. -/
theorem updateConversationTitle_persists (now : Nat)
    (db : List Conversation) (conversationId : String) (newTitle : String)
    (cid : OId) (hp : parseObjectId conversationId = some cid)
    (hnb : jsTrim newTitle ≠ "")
    (hex : ∃ c ∈ db, c.mongoId = cid) :
    (updateConversationTitle now db conversationId newTitle).1 = true ∧
      ∃ c₁ ∈ (updateConversationTitle now db conversationId newTitle).2,
        c₁.mongoId = cid ∧ c₁.title = some (jsTrim newTitle) := by
  have hne : ¬(newTitle = "" ∨ (jsTrim newTitle).length = 0) := by
    rintro (rfl | h)
    · exact hnb rfl
    · exact hnb ((strLength_eq_zero _).mp h)
  obtain ⟨c, hc, hcid⟩ := hex
  obtain ⟨h1, z, hz, hpz, hfz⟩ := updateFirst_found
    (fun c : Conversation => c.mongoId == cid)
    (fun c => { c with title := some (jsTrim newTitle), updatedAt := now })
    db c hc (by simpa using hcid)
  simp only [updateConversationTitle, hp, if_neg hne]
  refine ⟨h1, _, hfz, ?_, rfl⟩
  simpa using hpz

/-- A successful validation returns the last history message, and it is a
user message. -/
theorem validateRequest_ok (req : ChatRequest) (cid pid : String)
    (files : List StagedFileData) (lm : Message)
    (h : validateRequest req = .ok (cid, pid, files, lm)) :
    req.messages.getLast? = some lm ∧ lm.role = "user" := by
  by_cases hb : (jsFalsy (req.data.bind RequestData.conversationId) ||
      jsFalsy (req.data.bind RequestData.projectId)) = true
  · simp only [validateRequest, if_pos hb] at h
    exact absurd h (by simp)
  · cases hl : req.messages.getLast? with
    | none =>
      simp only [validateRequest, if_neg hb, hl] at h
      exact absurd h (by simp)
    | some m =>
      by_cases hr : m.role ≠ "user"
      · simp only [validateRequest, if_neg hb, hl, if_pos hr] at h
        exact absurd h (by simp)
      · simp only [validateRequest, if_neg hb, hl, if_neg hr] at h
        simp only [Except.ok.injEq, Prod.mk.injEq] at h
        obtain ⟨-, -, -, rfl⟩ := h
        exact ⟨rfl, not_not.mp hr⟩

/-- While every stored document with the requested id has a non-empty title,
the title phase performs no title-set call. -/
theorem titlePhase_skips (uid : OId) (now : Nat) (db1 : List Conversation)
    (conversationId : String) (cid : OId)
    (originalMessages : List Message) (titleModelText : Option String)
    (hp : parseObjectId conversationId = some cid)
    (hdb1 : ∀ c ∈ db1, c.mongoId = cid → ∃ t, c.title = some t ∧ t ≠ "") :
    (titlePhase (some uid) now db1 conversationId originalMessages
      titleModelText).1.titleSetCalls = 0 := by
  cases hfm : originalMessages.find? (fun m => m.role == "user") with
  | none => simp [titlePhase, hfm]
  | some fm =>
    cases hg : getConversationIfOwner (some uid) db1 conversationId with
    | none => simp [titlePhase, hfm, hg]
    | some c =>
      have hg' : db1.find? (fun c : Conversation =>
          c.mongoId == cid && c.userId == uid) = some c := by
        simpa [getConversationIfOwner, hp] using hg
      have hpc := List.find?_some hg'
      have hmem := List.mem_of_find?_eq_some hg'
      simp only [Bool.and_eq_true, beq_iff_eq] at hpc
      obtain ⟨t, ht, htne⟩ := hdb1 c hmem hpc.1
      have hfalsy : jsFalsyTitle c.title = false := by
        rw [ht]
        simpa [jsFalsyTitle] using htne
      simp [titlePhase, hfm, hg, hfalsy]

/-- While every stored document with the requested id is owned by the caller
and still untitled, a successful non-trivial generation run performs exactly
one title-set call and persists the trimmed cleaned title. -/
theorem titlePhase_sets (uid : OId) (now : Nat) (db1 : List Conversation)
    (conversationId : String) (cid : OId)
    (originalMessages : List Message) (fm : Message) (raw : String)
    (hp : parseObjectId conversationId = some cid)
    (hdb1 : ∀ c ∈ db1, c.mongoId = cid → c.userId = uid ∧ c.title = none)
    (hex1 : ∃ c ∈ db1, c.mongoId = cid)
    (hfm : originalMessages.find? (fun m => m.role == "user") = some fm)
    (hskip : skipTitleGeneration fm.content = false)
    (hclean : jsTrim (cleanTitle raw) ≠ "") :
    (titlePhase (some uid) now db1 conversationId originalMessages
      (some raw)).1.titleSetCalls = 1 ∧
    ∃ c₁ ∈ (titlePhase (some uid) now db1 conversationId originalMessages
      (some raw)).2, c₁.mongoId = cid ∧
      c₁.title = some (jsTrim (cleanTitle raw)) := by
  obtain ⟨c0, hc0, hc0id⟩ := hex1
  have hc0own := hdb1 c0 hc0 hc0id
  have hpred : (fun c : Conversation =>
      c.mongoId == cid && c.userId == uid) c0 = true := by
    simp [hc0id, hc0own.1]
  obtain ⟨c, hg⟩ : ∃ c, db1.find? (fun c : Conversation =>
      c.mongoId == cid && c.userId == uid) = some c := by
    cases hfind : db1.find? (fun c : Conversation =>
        c.mongoId == cid && c.userId == uid) with
    | none => exact absurd hpred (by simpa using List.find?_eq_none.mp hfind c0 hc0)
    | some c => exact ⟨c, rfl⟩
  have hgo : getConversationIfOwner (some uid) db1 conversationId = some c := by
    simp [getConversationIfOwner, hp, hg]
  have hcid : c.mongoId = cid := by
    have := List.find?_some hg
    simp only [Bool.and_eq_true, beq_iff_eq] at this
    exact this.1
  have hfalsy : jsFalsyTitle c.title = true := by
    rw [(hdb1 c (List.mem_of_find?_eq_some hg) hcid).2]
    rfl
  have hclean0 : cleanTitle raw ≠ "" := by
    intro h0
    exact hclean (by rw [h0]; rfl)
  have hgen : generateChatTitle fm.content (some raw) =
      { title := some (cleanTitle raw), modelCalled := true } := by
    simp [generateChatTitle, hskip, hclean0]
  obtain ⟨hset, c₁, hc₁, hc₁id, hc₁t⟩ := updateConversationTitle_persists now
    db1 conversationId (cleanTitle raw) cid hp hclean
    ⟨c0, hc0, hc0id⟩
  refine ⟨?_, c₁, ?_, hc₁id, hc₁t⟩
  · simp [titlePhase, hfm, hgo, hfalsy, hgen]
  · simpa [titlePhase, hfm, hgo, hfalsy, hgen] using hc₁

/-! ## Claim theorems -/

/-- C3: a request missing `conversationId` or `projectId`, with an empty
message list, or whose last message is not from the user, is answered with
status 400 and a zero trace: no collaborator is invoked, so the model is not
called and nothing is persisted. -/
theorem chat_validation_failure_aborts_turn (env : Env) (req : ChatRequest)
    (uid uname : String) (hs : env.session = some (uid, uname))
    (h : req.data.bind RequestData.conversationId = none ∨
      req.data.bind RequestData.projectId = none ∨
      req.messages = [] ∨
      (∃ m, req.messages.getLast? = some m ∧ m.role ≠ "user")) :
    resultStatus (POST env req).1 = some 400 ∧ (POST env req).2 = {} := by
  have hv : ∃ msg, validateRequest req = .error (400, msg) := by
    by_cases hb : (jsFalsy (req.data.bind RequestData.conversationId) ||
        jsFalsy (req.data.bind RequestData.projectId)) = true
    · exact ⟨"Missing conversationId or projectId",
        by simp only [validateRequest, if_pos hb]⟩
    · have hcid : req.data.bind RequestData.conversationId ≠ none := by
        intro hn
        exact hb (by simp [jsFalsy, hn])
      have hpid : req.data.bind RequestData.projectId ≠ none := by
        intro hn
        exact hb (by simp [jsFalsy, hn])
      rcases h with h | h | h | ⟨m, hm1, hm2⟩
      · exact absurd h hcid
      · exact absurd h hpid
      · refine ⟨"Missing messages", ?_⟩
        have hl : req.messages.getLast? = none := by rw [h]; rfl
        simp only [validateRequest, if_neg hb, hl]
      · exact ⟨"Last message must be from user",
          by simp only [validateRequest, if_neg hb, hm1, if_pos hm2]⟩
  obtain ⟨msg, hv⟩ := hv
  simp [POST, hs, hv, resultStatus]

/-- C3 witness: a concrete request with no conversation id is rejected with
a 400 and an all-zero collaborator trace. -/
theorem chat_validation_failure_aborts_turn_witness :
    resultStatus (POST baseEnv missingIdReq).1 = some 400 ∧
      (POST baseEnv missingIdReq).2 = {} :=
  chat_validation_failure_aborts_turn baseEnv missingIdReq uidC "Ada" rfl
    (Or.inl rfl)

/-- C8: `generateChatTitle` performs no model call and returns `null` when
the first user message is empty, shorter than 5 characters, or equals
"hi"/"hello" case-insensitively. -/
theorem trivial_first_message_skips_title_generation (content : String)
    (modelText : Option String)
    (h : content = "" ∨ content.length < 5 ∨ jsToLower content = "hi" ∨
      jsToLower content = "hello") :
    generateChatTitle content modelText =
      { title := none, modelCalled := false } := by
  have hskip : skipTitleGeneration content = true := by
    unfold skipTitleGeneration
    rcases h with rfl | h | h | h
    · simp
    · have : (jsTrim content).length < 5 :=
        lt_of_le_of_lt (jsTrim_length_le content) h
      simp [this]
    · simp [h]
    · simp [h]
  simp [generateChatTitle, hskip]

/-- C8 witness: "hi" triggers neither a model call nor a title. -/
theorem trivial_first_message_skips_title_generation_witness :
    generateChatTitle "hi" (some "Greeting") =
      { title := none, modelCalled := false } :=
  trivial_first_message_skips_title_generation "hi" (some "Greeting")
    (Or.inr (Or.inr (Or.inl (by decide))))

/-- C9: a session user who owns no conversation with the requested id gets
`none` from `getConversationIfOwner`, and a (non-empty) message append via
`saveMessagesToConversation` reports `false` and leaves the store unchanged:
both operations are ownership-scoped, so no cross-tenant mutation occurs. -/
theorem ownership_scoping_blocks_non_owner (uid : OId) (now : Nat)
    (freshId : Nat → OId) (db : List Conversation) (conversationId : String)
    (cid : OId) (messages : List ChatMsg)
    (hp : parseObjectId conversationId = some cid)
    (hno : ∀ c ∈ db, c.mongoId = cid → c.userId ≠ uid)
    (hm : messages ≠ []) :
    getConversationIfOwner (some uid) db conversationId = none ∧
      saveMessagesToConversation (some uid) now freshId db conversationId
        messages = (false, db) := by
  have hpred : ∀ c ∈ db,
      (fun c : Conversation => c.mongoId == cid && c.userId == uid) c =
        false := by
    intro c hc
    by_cases h1 : c.mongoId = cid
    · have := hno c hc h1
      simp [h1, this]
    · simp [h1]
  have hne : messages.isEmpty = false := by
    cases messages with
    | nil => exact absurd rfl hm
    | cons a l => rfl
  constructor
  · simp only [getConversationIfOwner, hp]
    exact List.find?_eq_none.mpr (fun x hx => by simp [hpred x hx])
  · simp only [saveMessagesToConversation, hp, hne, Bool.false_eq_true,
      if_false]
    exact updateFirst_not_found _ _ db (hpred)

/-- C9 witness: `uidC` can neither read nor append to the conversation
owned by `uidO`. -/
theorem ownership_scoping_blocks_non_owner_witness :
    getConversationIfOwner (some uidC) [convOtherOwner] cidA = none ∧
      saveMessagesToConversation (some uidC) 7 (fun _ => fidE)
        [convOtherOwner] cidA [chatMsg1] = (false, [convOtherOwner]) :=
  ownership_scoping_blocks_non_owner uidC 7 (fun _ => fidE) [convOtherOwner]
    cidA cidA [chatMsg1] (by decide) (by decide) (by decide)

/-- C10: an empty message list makes `saveMessagesToConversation` report
success while the store is returned unchanged: no write happens, so message
history and `updatedAt` stay as they were. -/
theorem empty_save_reports_success_without_write (uid : OId) (now : Nat)
    (freshId : Nat → OId) (db : List Conversation) (conversationId : String)
    (cid : OId) (hp : parseObjectId conversationId = some cid) :
    saveMessagesToConversation (some uid) now freshId db conversationId [] =
      (true, db) := by
  simp [saveMessagesToConversation, hp]

/-- C10 witness: the empty append on a concrete store returns `true` and the
store unchanged. -/
theorem empty_save_reports_success_without_write_witness :
    saveMessagesToConversation (some uidC) 7 (fun _ => fidE) [convNoTitle]
      cidA [] = (true, [convNoTitle]) :=
  empty_save_reports_success_without_write uidC 7 (fun _ => fidE)
    [convNoTitle] cidA cidA (by decide)

/-- C1 counterexample: for a caller with no membership row the turn does
fail, but not before the task fetch — `Promise.all` issues the task lookup
together with the role lookup, so a collaborator other than the role lookup
is invoked (`taskFetchCalls = 1`), and the failure is a 500, not an
authorization status. -/
theorem no_membership_counterexample :
    noRoleEnv.roleResult = none ∧
    (POST noRoleEnv validReq).2.taskFetchCalls = 1 ∧
    (POST noRoleEnv validReq).1 =
      .response 500 "Failed to retrieve user context" := by
  refine ⟨rfl, ?_, ?_⟩ <;> decide

/-- C1 (amended): for every authenticated, validated request whose caller
has no membership row, the turn fails with the 500 "Failed to retrieve user
context" response, and the only collaborators invoked are the role lookup
and the concurrently issued task fetch — no file persistence, retrieval
call, message save or model invocation happens. -/
theorem no_membership_fails_turn_after_concurrent_fetches (env : Env)
    (req : ChatRequest) (uid uname cid pid : String)
    (files : List StagedFileData) (lm : Message)
    (hs : env.session = some (uid, uname))
    (hv : validateRequest req = .ok (cid, pid, files, lm))
    (hrole : env.roleResult = none) :
    POST env req = (.response 500 "Failed to retrieve user context",
      { roleLookupCalls := 1, taskFetchCalls := 1 }) := by
  simp [POST, hs, hv, afterValidation, hrole]

/-- C1 witness: the concrete membership-less run hits the amended
behaviour. -/
theorem no_membership_fails_turn_after_concurrent_fetches_witness :
    POST noRoleEnv validReq = (.response 500 "Failed to retrieve user context",
      { roleLookupCalls := 1, taskFetchCalls := 1 }) :=
  no_membership_fails_turn_after_concurrent_fetches noRoleEnv validReq uidC
    "Ada" cidA pidB [] userMsg1 rfl rfl rfl

/-- C2 counterexample: a retrieval-service transport error does not let the
turn proceed — the thrown fetch lands in the handler's outer catch, the
model is never invoked, and the caller gets a 500. -/
theorem retrieval_transport_error_counterexample :
    ragDownEnv.rag = .transportError ∧
    (POST ragDownEnv validReq).1 = .response 500 "Internal Server Error" ∧
    (POST ragDownEnv validReq).2.modelStreamCalls = 0 := by
  refine ⟨rfl, ?_, ?_⟩ <;> decide

/-- C2 (amended): a non-success HTTP status from the retrieval service is
non-fatal — the turn completes and the model receives only the role/task
context block followed by the unmodified history — while a transport error
aborts the whole turn with a 500 before the user-message save and the model
call. -/
theorem retrieval_failure_behavior (env : Env) (req : ChatRequest)
    (uid uname cid pid : String) (files : List StagedFileData) (lm : Message)
    (role : String)
    (hs : env.session = some (uid, uname))
    (hv : validateRequest req = .ok (cid, pid, files, lm))
    (hrole : env.roleResult = some role)
    (hguard : ¬(0 < files.length ∧ ((parseObjectId pid).isNone ∨
      (parseObjectId uid).isNone ∨ (parseObjectId cid).isNone))) :
    (∀ body, env.rag = .httpStatusError body →
      POST env req = (.stream (streamGeminiText
        (contextMessage cid env.now (contextMessageContent uname role
          env.tasksResult files) :: req.messages) systemPromptText),
        { roleLookupCalls := 1, taskFetchCalls := 1,
          fileRecordCalls := files.length,
          fileErrorLogs := (processFiles env.persistResult files).2.2,
          ragCalls := 1,
          ragFilePayload := some (processFiles env.persistResult files).1,
          userSaveCalls := 1, modelStreamCalls := 1 })) ∧
    (env.rag = .transportError →
      POST env req = (.response 500 "Internal Server Error",
        { roleLookupCalls := 1, taskFetchCalls := 1,
          fileRecordCalls := files.length,
          fileErrorLogs := (processFiles env.persistResult files).2.2,
          ragCalls := 1,
          ragFilePayload := some (processFiles env.persistResult files).1 })) := by
  have hguard2 : ¬(0 < files.length ∧ (parseObjectId pid = none ∨
      parseObjectId uid = none ∨ parseObjectId cid = none)) := by
    simpa using hguard
  constructor
  · intro body hrag
    simp [POST, hs, hv, afterValidation, hrole, hguard2, hrag]
  · intro hrag
    simp [POST, hs, hv, afterValidation, hrole, hguard2, hrag]

/-- C2 witness: a concrete non-ok retrieval response still completes the
turn with only the context block plus history sent to the model. -/
theorem retrieval_failure_behavior_witness :
    POST ragHttpErrEnv validReq = (.stream (streamGeminiText
      (contextMessage cidA 5 (contextMessageContent "Ada" "Member"
        [(tidD, "Fix bug")] []) :: [userMsg1]) systemPromptText),
      { roleLookupCalls := 1, taskFetchCalls := 1, fileRecordCalls := 0,
        fileErrorLogs := 0, ragCalls := 1, ragFilePayload := some none,
        userSaveCalls := 1, modelStreamCalls := 1 }) :=
  (retrieval_failure_behavior ragHttpErrEnv validReq uidC "Ada" cidA pidB []
    userMsg1 "Member" rfl rfl rfl (by decide)).1 "boom" rfl

/-- C5: for every completed turn, the message list handed to
`streamGeminiText` equals the spec's sequence — optional retrieval block,
then the role/task/file context message, then the original history
unmodified — and the history ends in the caller's latest user message. -/
theorem prompt_assembly_matches_spec (env : Env) (req : ChatRequest)
    (uid uname cid pid : String) (files : List StagedFileData) (lm : Message)
    (role : String)
    (hs : env.session = some (uid, uname))
    (hv : validateRequest req = .ok (cid, pid, files, lm))
    (hrole : env.roleResult = some role)
    (hguard : ¬(0 < files.length ∧ ((parseObjectId pid).isNone ∨
      (parseObjectId uid).isNone ∨ (parseObjectId cid).isNone)))
    (hrag : env.rag ≠ .transportError) :
    (POST env req).1 = .stream (streamGeminiText
      (specMessagesForAI cid env.now env.rag
        (contextMessage cid env.now (contextMessageContent uname role
          env.tasksResult files)) req.messages) systemPromptText) ∧
    req.messages.getLast? = some lm ∧ lm.role = "user" := by
  have hguard2 : ¬(0 < files.length ∧ (parseObjectId pid = none ∨
      parseObjectId uid = none ∨ parseObjectId cid = none)) := by
    simpa using hguard
  obtain ⟨hlast, hrole2⟩ := validateRequest_ok req cid pid files lm hv
  refine ⟨?_, hlast, hrole2⟩
  cases hr : env.rag with
  | transportError => exact absurd hr hrag
  | httpStatusError body =>
    simp [POST, hs, hv, afterValidation, hrole, hguard2, hr, specMessagesForAI]
  | ok results =>
    by_cases hres : 0 < results.length <;>
      simp [POST, hs, hv, afterValidation, hrole, hguard2, hr,
        specMessagesForAI, hres]

/-- C5 witness: a concrete successful turn with two retrieval snippets
streams exactly the spec sequence. -/
theorem prompt_assembly_matches_spec_witness :
    (POST ragOkEnv validReq).1 = .stream (streamGeminiText
      (specMessagesForAI cidA 5 (.ok ["snippet one", "snippet two"])
        (contextMessage cidA 5 (contextMessageContent "Ada" "Member"
          [(tidD, "Fix bug")] [])) [userMsg1]) systemPromptText) ∧
    ([userMsg1] : List Message).getLast? = some userMsg1 ∧
      userMsg1.role = "user" :=
  prompt_assembly_matches_spec ragOkEnv validReq uidC "Ada" cidA pidB []
    userMsg1 "Member" rfl rfl rfl (by decide) (by decide)

/-- C4 counterexample: when the single staged file's durable persistence
fails, the failure is logged and the turn proceeds, but the file's name is
NOT excluded — it still appears in the context string sent to the model,
because the file sentence is built from the staged files, not from the
persisted records. -/
theorem failed_file_persistence_counterexample :
    (POST baseEnv fileReq).2.fileErrorLogs = 1 ∧
    (POST baseEnv fileReq).2.modelStreamCalls = 1 ∧
    streamHasText (POST baseEnv fileReq).1 reportFile.name = true := by
  refine ⟨?_, ?_, ?_⟩ <;> decide

/-- C4 (amended): a failed per-file persistence is logged (the error count
is positive) and the turn proceeds to the model, but the failed file's name
remains included in the context message sent to the model. -/
theorem failed_file_persistence_keeps_name_in_context (env : Env)
    (req : ChatRequest) (uid uname cid pid : String)
    (files : List StagedFileData) (lm : Message) (role : String)
    (f : StagedFileData) (i : Nat)
    (hs : env.session = some (uid, uname))
    (hv : validateRequest req = .ok (cid, pid, files, lm))
    (hrole : env.roleResult = some role)
    (hids : ¬(parseObjectId pid = none ∨ parseObjectId uid = none ∨
      parseObjectId cid = none))
    (hf : f ∈ files) (hi : i < files.length)
    (hpf : env.persistResult i = none)
    (hrag : env.rag ≠ .transportError) :
    (POST env req).2.fileRecordCalls = files.length ∧
    0 < (POST env req).2.fileErrorLogs ∧
    (POST env req).2.modelStreamCalls = 1 ∧
    streamHasText (POST env req).1 f.name = true := by
  have hguard2 : ¬(0 < files.length ∧ (parseObjectId pid = none ∨
      parseObjectId uid = none ∨ parseObjectId cid = none)) := by
    intro hand
    exact hids hand.2
  have herr : 0 < (processFiles env.persistResult files).2.2 := by
    have hmem : (none : Option ProjectFileRec) ∈
        (List.range files.length).map env.persistResult :=
      List.mem_map.mpr ⟨i, List.mem_range.mpr hi, hpf⟩
    exact List.length_pos.mpr (List.ne_nil_of_mem
      (List.mem_filter.mpr ⟨hmem, rfl⟩))
  have hctx : containsStr (contextMessageContent uname role env.tasksResult
      files) f.name = true := contextMessageContent_hasName _ _ _ _ f hf
  cases hr : env.rag with
  | transportError => exact absurd hr hrag
  | httpStatusError body =>
    refine ⟨?_, ?_, ?_, ?_⟩ <;>
      simp [POST, hs, hv, afterValidation, hrole, hguard2, hr, herr,
        streamHasText, streamGeminiText, contextMessage, hctx]
  | ok results =>
    by_cases hres : 0 < results.length <;>
      refine ⟨?_, ?_, ?_, ?_⟩ <;>
        simp [POST, hs, hv, afterValidation, hrole, hguard2, hr, hres, herr,
          streamHasText, streamGeminiText, contextMessage, hctx]

/-- C4 witness: the concrete failing-persistence run still names the file in
a message handed to the model. -/
theorem failed_file_persistence_keeps_name_in_context_witness :
    (POST baseEnv fileReq).2.fileRecordCalls = 1 ∧
    0 < (POST baseEnv fileReq).2.fileErrorLogs ∧
    (POST baseEnv fileReq).2.modelStreamCalls = 1 ∧
    streamHasText (POST baseEnv fileReq).1 "report.pdf" = true :=
  failed_file_persistence_keeps_name_in_context baseEnv fileReq uidC "Ada"
    cidA pidB [reportFile] userMsg1 "Member" reportFile 0 rfl rfl rfl
    (by decide) (by decide) (by decide) rfl (by decide)

/-- C6 counterexample: a conversation whose title is the empty string — a
non-null title — still triggers a title-set call on a completed turn,
because the handler tests JavaScript falsiness, not null-ness. -/
theorem nonnull_title_counterexample :
    convEmptyTitle.title ≠ none ∧
    (handleAiCompletion (some uidC) 9 (fun _ => fidE) aidF aidF
      [convEmptyTitle] cidA [redesignMsg] "reply"
      (some "Onboarding Redesign")).1.titleSetCalls = 1 := by
  refine ⟨?_, ?_⟩ <;> decide

/-- C6 (amended): a completed turn on a conversation whose title is a
non-null AND non-empty string triggers zero title-set calls, whatever the
message content and model output; the handler treats an empty-string title
(never produced by the store's own writes) like an absent one. -/
theorem nonempty_title_blocks_regeneration (uid : OId) (now : Nat)
    (freshId : Nat → OId) (did sid : OId) (db : List Conversation)
    (conversationId : String) (cid : OId) (originalMessages : List Message)
    (atext : String) (titleModelText : Option String)
    (hp : parseObjectId conversationId = some cid)
    (hdb : ∀ c ∈ db, c.mongoId = cid → ∃ t, c.title = some t ∧ t ≠ "") :
    (handleAiCompletion (some uid) now freshId did sid db conversationId
      originalMessages atext titleModelText).1.titleSetCalls = 0 := by
  have hdb1 : ∀ c ∈ (saveMessagesToConversation (some uid) now freshId db
      conversationId [assistantChatMsg did sid atext now]).2,
      c.mongoId = cid → ∃ t, c.title = some t ∧ t ≠ "" := by
    intro c hc hcid
    obtain ⟨c₀, hc₀, hid, hown, hti⟩ := save_shape _ _ _ _ _ _ c hc
    obtain ⟨t, ht, htne⟩ := hdb c₀ hc₀ (by rw [← hid]; exact hcid)
    exact ⟨t, by rw [hti, ht], htne⟩
  exact titlePhase_skips uid now _ conversationId cid originalMessages
    titleModelText hp hdb1

/-- C6 witness: a conversation titled "Planning" gets zero title-set calls
on a completed turn with a non-trivial first message and a willing model. -/
theorem nonempty_title_blocks_regeneration_witness :
    (handleAiCompletion (some uidC) 9 (fun _ => fidE) aidF aidF [convTitled]
      cidA [redesignMsg] "reply"
      (some "Onboarding Redesign")).1.titleSetCalls = 0 :=
  nonempty_title_blocks_regeneration uidC 9 (fun _ => fidE) aidF aidF
    [convTitled] cidA cidA [redesignMsg] "reply" (some "Onboarding Redesign")
    (by decide)
    (fun c hc hcid => by
      rcases List.mem_singleton.mp hc with rfl
      exact ⟨"Planning", rfl, by decide⟩)

/-- C7: on a completed turn over an untitled conversation owned by the
caller, with a non-trivial first user message and a model response whose
cleaned form is non-blank, exactly one title-set call occurs, and the
persisted title is the trimmed cleaned response: at most 50 characters and
free of quote characters. -/
theorem untitled_conversation_gets_one_clean_title (uid : OId) (now : Nat)
    (freshId : Nat → OId) (did sid : OId) (db : List Conversation)
    (conversationId : String) (cid : OId) (originalMessages : List Message)
    (atext : String) (fm : Message) (raw : String)
    (hp : parseObjectId conversationId = some cid)
    (hdb : ∀ c ∈ db, c.mongoId = cid → c.userId = uid ∧ c.title = none)
    (hex : ∃ c ∈ db, c.mongoId = cid)
    (hfm : originalMessages.find? (fun m => m.role == "user") = some fm)
    (hskip : skipTitleGeneration fm.content = false)
    (hclean : jsTrim (cleanTitle raw) ≠ "") :
    (handleAiCompletion (some uid) now freshId did sid db conversationId
      originalMessages atext (some raw)).1.titleSetCalls = 1 ∧
    ∃ c₁ ∈ (handleAiCompletion (some uid) now freshId did sid db
      conversationId originalMessages atext (some raw)).2,
      c₁.mongoId = cid ∧ c₁.title = some (jsTrim (cleanTitle raw)) ∧
      (jsTrim (cleanTitle raw)).length ≤ 50 ∧
      quoteFree (jsTrim (cleanTitle raw)) := by
  have hlen : (jsTrim (cleanTitle raw)).length ≤ 50 :=
    le_trans (jsTrim_length_le _) (cleanTitle_length_le raw)
  have hqf : quoteFree (jsTrim (cleanTitle raw)) :=
    quoteFree_jsTrim _ (cleanTitle_quoteFree raw)
  have hdb1 : ∀ c ∈ (saveMessagesToConversation (some uid) now freshId db
      conversationId [assistantChatMsg did sid atext now]).2,
      c.mongoId = cid → c.userId = uid ∧ c.title = none := by
    intro c hc hcid
    obtain ⟨c₀, hc₀, hid, hown, hti⟩ := save_shape _ _ _ _ _ _ c hc
    obtain ⟨h1, h2⟩ := hdb c₀ hc₀ (by rw [← hid]; exact hcid)
    exact ⟨by rw [hown, h1], by rw [hti, h2]⟩
  have hex1 : ∃ c ∈ (saveMessagesToConversation (some uid) now freshId db
      conversationId [assistantChatMsg did sid atext now]).2,
      c.mongoId = cid := by
    obtain ⟨c, hc, hcid⟩ := hex
    obtain ⟨c₁, hc₁, h1, h2⟩ := save_exists (some uid) now freshId db
      conversationId _ cid uid ⟨c, hc, hcid, (hdb c hc hcid).1⟩
    exact ⟨c₁, hc₁, h1⟩
  obtain ⟨hset, c₁, hc₁, hcid₁, ht₁⟩ := titlePhase_sets uid now _
    conversationId cid originalMessages fm raw hp hdb1 hex1 hfm hskip hclean
  exact ⟨hset, c₁, hc₁, hcid₁, ht₁, hlen, hqf⟩

/-- C7 witness: the spec's example turn — untitled conversation, first user
message about redesigning onboarding, quoted model response — yields one
title-set call persisting a clean, bounded title. -/
theorem untitled_conversation_gets_one_clean_title_witness :
    (handleAiCompletion (some uidC) 9 (fun _ => fidE) aidF aidF [convNoTitle]
      cidA [redesignMsg] "reply" (some rawTitle)).1.titleSetCalls = 1 ∧
    ∃ c₁ ∈ (handleAiCompletion (some uidC) 9 (fun _ => fidE) aidF aidF
      [convNoTitle] cidA [redesignMsg] "reply" (some rawTitle)).2,
      c₁.mongoId = cidA ∧ c₁.title = some (jsTrim (cleanTitle rawTitle)) ∧
      (jsTrim (cleanTitle rawTitle)).length ≤ 50 ∧
      quoteFree (jsTrim (cleanTitle rawTitle)) :=
  untitled_conversation_gets_one_clean_title uidC 9 (fun _ => fidE) aidF aidF
    [convNoTitle] cidA cidA [redesignMsg] "reply" redesignMsg rawTitle
    (by decide)
    (fun c hc hcid => by
      rcases List.mem_singleton.mp hc with rfl
      exact ⟨rfl, rfl⟩)
    ⟨convNoTitle, List.mem_singleton.mpr rfl, rfl⟩
    (by decide) (by decide) (by decide)

end Cordial
